import Mathlib

/-!
Verification of the muduo networking core against its specification.

Shallow embedding of:
* `muduo/net/Buffer.h` / `Buffer.cc` (byte buffer with reader/writer indices),
* `muduo/net/TcpConnection.cc` (sendInLoop / handleWrite / send),
* `muduo/net/TimerQueue.cc` (two-index timer sets, cancellation set),
* `muduo/net/Channel.cc` (handleEventWithGuard dispatch),
* `muduo/net/Connector.cc` / `Connector.h` (errno classification, retry backoff).

Machine integers of the source (`size_t`, `ssize_t`, `int64_t`, ...) are
modelled as `Nat`; subtraction only occurs under the hypotheses matching the
source's assertions, where C++ and Nat subtraction agree.  `assert(...)`
statements of the source are modelled as hypotheses of the theorems, not as
part of the definitions (the definitions follow the release/NDEBUG control
flow).  Fallible system calls (`write`, `read`, `connect`) are modelled by an
explicit result argument supplied by the environment.
-/

namespace Muduo

/-! ### Buffer (muduo/net/Buffer.h, Buffer.cc)

`std::vector<char> buffer_` is a `List Nat` of byte values; `readerIndex_`
and `writerIndex_` are `Nat`. -/

structure Buffer where
  data : List Nat
  readerIndex : Nat
  writerIndex : Nat
deriving Repr, DecidableEq

namespace Buffer

/-- `static const size_t kCheapPrepend = 8` -/
def kCheapPrepend : Nat := 8

/-- `static const size_t kInitialSize = 1024` -/
def kInitialSize : Nat := 1024

/-- `Buffer(size_t initialSize)` : vector of `kCheapPrepend + initialSize`
zero bytes, both indices at `kCheapPrepend`. -/
def mkBuffer (initialSize : Nat) : Buffer :=
  { data := List.replicate (kCheapPrepend + initialSize) 0
    readerIndex := kCheapPrepend
    writerIndex := kCheapPrepend }

/-- `buffer_.size()` -/
def size (b : Buffer) : Nat := b.data.length

/-- `readableBytes() = writerIndex_ - readerIndex_` -/
def readableBytes (b : Buffer) : Nat := b.writerIndex - b.readerIndex

/-- `writableBytes() = buffer_.size() - writerIndex_` -/
def writableBytes (b : Buffer) : Nat := b.size - b.writerIndex

/-- `prependableBytes() = readerIndex_` -/
def prependableBytes (b : Buffer) : Nat := b.readerIndex

/-- `std::copy(src, src+len, l.begin()+pos)` : overwrite `src.length` bytes of
`l` starting at position `pos`. -/
def writeAt (l : List Nat) (pos : Nat) (src : List Nat) : List Nat :=
  l.take pos ++ src ++ l.drop (pos + src.length)

/-- `std::vector::resize(n)` : truncate or zero-extend to length `n`. -/
def resizeList (l : List Nat) (n : Nat) : List Nat :=
  l.take n ++ List.replicate (n - l.length) 0

/-- `retrieveAll()` : reset both indices to `kCheapPrepend`. -/
def retrieveAll (b : Buffer) : Buffer :=
  { b with readerIndex := kCheapPrepend, writerIndex := kCheapPrepend }

/-- `retrieve(len)` : advance the reader by `len` if `len < readableBytes()`,
otherwise `retrieveAll()`.  (Source asserts `len <= readableBytes()`.) -/
def retrieve (b : Buffer) (len : Nat) : Buffer :=
  if len < b.readableBytes then
    { b with readerIndex := b.readerIndex + len }
  else
    b.retrieveAll

/-- `hasWritten(len)` : advance the writer.  (Source asserts
`len <= writableBytes()`.) -/
def hasWritten (b : Buffer) (len : Nat) : Buffer :=
  { b with writerIndex := b.writerIndex + len }

/-- `makeSpace(len)` : if `writableBytes() + prependableBytes() <
len + kCheapPrepend` grow the vector to `writerIndex_ + len`; otherwise
compact the readable span to offset `kCheapPrepend` and reset the indices. -/
def makeSpace (b : Buffer) (len : Nat) : Buffer :=
  if b.writableBytes + b.prependableBytes < len + kCheapPrepend then
    { b with data := resizeList b.data (b.writerIndex + len) }
  else
    { b with
      data := writeAt b.data kCheapPrepend
                ((b.data.drop b.readerIndex).take b.readableBytes)
      readerIndex := kCheapPrepend
      writerIndex := kCheapPrepend + b.readableBytes }

/-- `ensureWritableBytes(len)` -/
def ensureWritableBytes (b : Buffer) (len : Nat) : Buffer :=
  if b.writableBytes < len then b.makeSpace len else b

/-- `append(data, len)` : ensure space, copy at `beginWrite()`, `hasWritten`. -/
def append (b : Buffer) (src : List Nat) : Buffer :=
  let b1 := b.ensureWritableBytes src.length
  ({ b1 with data := writeAt b1.data b1.writerIndex src }).hasWritten src.length

/-- `prepend(data, len)` : move the reader back by `len` and copy the data
there.  (Source asserts `len <= prependableBytes()`.) -/
def prepend (b : Buffer) (src : List Nat) : Buffer :=
  let r := b.readerIndex - src.length
  { b with readerIndex := r, data := writeAt b.data r src }

/-- Modelled from the spec: `muduo/net/Endian.h` (hostToNetwork64/32/16) is
not part of the sources; the spec says typed appends use network byte order,
so an integer of width `w` bytes is laid out big-endian.  `toBytesBE w x`
is the `w`-byte big-endian image of the bit pattern `x`. -/
def toBytesBE : Nat → Nat → List Nat
  | 0, _ => []
  | w + 1, x => toBytesBE w (x / 256) ++ [x % 256]

/-- Modelled from the spec: big-endian decode (networkToHost). -/
def fromBytesBE (l : List Nat) : Nat :=
  l.foldl (fun acc byte => acc * 256 + byte) 0

/-- `appendInt64(x)` : append the 8 network-order bytes of `x`. -/
def appendInt64 (b : Buffer) (x : Nat) : Buffer := b.append (toBytesBE 8 x)

/-- `appendInt32(x)` -/
def appendInt32 (b : Buffer) (x : Nat) : Buffer := b.append (toBytesBE 4 x)

/-- `appendInt16(x)` -/
def appendInt16 (b : Buffer) (x : Nat) : Buffer := b.append (toBytesBE 2 x)

/-- `appendInt8(x)` -/
def appendInt8 (b : Buffer) (x : Nat) : Buffer := b.append (toBytesBE 1 x)

/-- `peekInt64()` : memcpy 8 bytes from `peek()` and decode.  (Source asserts
`readableBytes() >= 8`.) -/
def peekInt64 (b : Buffer) : Nat :=
  fromBytesBE ((b.data.drop b.readerIndex).take 8)

/-- `peekInt32()` -/
def peekInt32 (b : Buffer) : Nat :=
  fromBytesBE ((b.data.drop b.readerIndex).take 4)

/-- `peekInt16()` -/
def peekInt16 (b : Buffer) : Nat :=
  fromBytesBE ((b.data.drop b.readerIndex).take 2)

/-- `peekInt8()` -/
def peekInt8 (b : Buffer) : Nat :=
  fromBytesBE ((b.data.drop b.readerIndex).take 1)

/-- `retrieveInt64()` -/
def retrieveInt64 (b : Buffer) : Buffer := b.retrieve 8

/-- `retrieveInt32()` -/
def retrieveInt32 (b : Buffer) : Buffer := b.retrieve 4

/-- `retrieveInt16()` -/
def retrieveInt16 (b : Buffer) : Buffer := b.retrieve 2

/-- `retrieveInt8()` -/
def retrieveInt8 (b : Buffer) : Buffer := b.retrieve 1

/-- `readInt64()` : peek, then retrieve, returning the value and the new
buffer. -/
def readInt64 (b : Buffer) : Nat × Buffer := (b.peekInt64, b.retrieveInt64)

/-- `readInt32()` -/
def readInt32 (b : Buffer) : Nat × Buffer := (b.peekInt32, b.retrieveInt32)

/-- `readInt16()` -/
def readInt16 (b : Buffer) : Nat × Buffer := (b.peekInt16, b.retrieveInt16)

/-- `readInt8()` -/
def readInt8 (b : Buffer) : Nat × Buffer := (b.peekInt8, b.retrieveInt8)

/-- `prependInt64(x)` -/
def prependInt64 (b : Buffer) (x : Nat) : Buffer := b.prepend (toBytesBE 8 x)

/-- `prependInt32(x)` -/
def prependInt32 (b : Buffer) (x : Nat) : Buffer := b.prepend (toBytesBE 4 x)

/-- `prependInt16(x)` -/
def prependInt16 (b : Buffer) (x : Nat) : Buffer := b.prepend (toBytesBE 2 x)

/-- `prependInt8(x)` -/
def prependInt8 (b : Buffer) (x : Nat) : Buffer := b.prepend (toBytesBE 1 x)

/-- `readFd(fd, savedErrno)` (Buffer.cc), success path: scatter-read into the
writable span and a 65536-byte stack buffer (the second iovec is used only
when `writableBytes() < 65536`); `incoming` is the data the descriptor has
available, and the read returns `min incoming.length capacity` bytes.  If the
result fits the writable span, just advance the writer; otherwise fill the
buffer to its end and `append` the overflow. -/
def readFd (b : Buffer) (incoming : List Nat) : Buffer :=
  let writable := b.writableBytes
  let cap := if writable < 65536 then writable + 65536 else writable
  let n := min incoming.length cap
  if n ≤ writable then
    { b with
      data := writeAt b.data b.writerIndex (incoming.take n)
      writerIndex := b.writerIndex + n }
  else
    let b1 : Buffer :=
      { b with
        data := writeAt b.data b.writerIndex (incoming.take writable)
        writerIndex := b.size }
    b1.append ((incoming.drop writable).take (n - writable))

/-- The weak index invariant of the buffer:
`readerIndex ≤ writerIndex ≤ size` and the backing array never shrinks below
the prepend headroom. -/
def Inv (b : Buffer) : Prop :=
  b.readerIndex ≤ b.writerIndex ∧ b.writerIndex ≤ b.size ∧ kCheapPrepend ≤ b.size

instance : DecidablePred Inv := fun b => by unfold Inv; infer_instance

/-- The public Buffer operations named by the spec's invariant claim. -/
inductive BufOp where
  | append (src : List Nat)
  | prepend (src : List Nat)
  | prependInt8 (x : Nat)
  | prependInt16 (x : Nat)
  | prependInt32 (x : Nat)
  | prependInt64 (x : Nat)
  | retrieve (len : Nat)
  | retrieveAll
  | readInt8
  | readInt16
  | readInt32
  | readInt64
  | hasWritten (len : Nat)
  | readFd (incoming : List Nat)
deriving Repr, DecidableEq

/-- Run one public operation. -/
def applyOp (b : Buffer) : BufOp → Buffer
  | .append src => b.append src
  | .prepend src => b.prepend src
  | .prependInt8 x => b.prependInt8 x
  | .prependInt16 x => b.prependInt16 x
  | .prependInt32 x => b.prependInt32 x
  | .prependInt64 x => b.prependInt64 x
  | .retrieve len => b.retrieve len
  | .retrieveAll => b.retrieveAll
  | .readInt8 => (b.readInt8).2
  | .readInt16 => (b.readInt16).2
  | .readInt32 => (b.readInt32).2
  | .readInt64 => (b.readInt64).2
  | .hasWritten len => b.hasWritten len
  | .readFd incoming => b.readFd incoming

/-- The `assert` preconditions the source places on each operation. -/
def opPre (b : Buffer) : BufOp → Prop
  | .append _ => True
  | .prepend src => src.length ≤ b.prependableBytes
  | .prependInt8 _ => 1 ≤ b.prependableBytes
  | .prependInt16 _ => 2 ≤ b.prependableBytes
  | .prependInt32 _ => 4 ≤ b.prependableBytes
  | .prependInt64 _ => 8 ≤ b.prependableBytes
  | .retrieve len => len ≤ b.readableBytes
  | .retrieveAll => True
  | .readInt8 => 1 ≤ b.readableBytes
  | .readInt16 => 2 ≤ b.readableBytes
  | .readInt32 => 4 ≤ b.readableBytes
  | .readInt64 => 8 ≤ b.readableBytes
  | .hasWritten len => len ≤ b.writableBytes
  | .readFd _ => True

instance (b : Buffer) (op : BufOp) : Decidable (opPre b op) := by
  unfold opPre; cases op <;> infer_instance

/-- Whether the operation is one of the prepend family (the family the spec
singles out as consuming prepend headroom). -/
def BufOp.isPrependOp : BufOp → Bool
  | .prepend _ => true
  | .prependInt8 _ => true
  | .prependInt16 _ => true
  | .prependInt32 _ => true
  | .prependInt64 _ => true
  | _ => false

end Buffer

/-! ### TcpConnection (muduo/net/TcpConnection.cc)

The fields of `TcpConnection` that `send` / `sendInLoop` / `handleWrite`
read and write.  The output buffer appears through its readable byte count
only (its content is never branched on by these functions).  The result of
`sockets::write` is an environment input. -/

inductive ConnState where
  | kDisconnected
  | kConnecting
  | kConnected
  | kDisconnecting
deriving Repr, DecidableEq

/-- Result of a `write(2)` attempt: `ok n` for a return of `n ≥ 0`, `err e`
for `-1` with `errno = e`. -/
inductive WriteRes where
  | ok (n : Nat)
  | err (errno : Nat)
deriving Repr, DecidableEq

def WriteRes.isOk : WriteRes → Bool
  | .ok _ => true
  | .err _ => false

def EWOULDBLOCK : Nat := 11
def EPIPE : Nat := 32
def ECONNRESET : Nat := 104

/-- The connection state sendInLoop/handleWrite operate on. -/
structure ConnS where
  state : ConnState
  channelWriting : Bool
  outputBuffer : Nat
  highWaterMark : Nat
  hasWriteCompleteCb : Bool
  hasHighWaterMarkCb : Bool
deriving Repr, DecidableEq

/-- Callbacks these functions enqueue with `loop_->queueInLoop`. -/
inductive CB where
  | writeComplete
  | highWaterMark (n : Nat)
deriving Repr, DecidableEq

def CB.isHighWaterMark : CB → Bool
  | .highWaterMark _ => true
  | _ => false

/-- Result of running one of the send-path functions: the new connection
state, whether `sockets::write` was called, the queued callbacks in order,
and whether `shutdownWrite` was issued. -/
structure SendResult where
  conn : ConnS
  wroteSocket : Bool
  queued : List CB
  shutdownWr : Bool
deriving Repr, DecidableEq

/-- The direct-write condition of sendInLoop:
`!channel_->isWriting() && outputBuffer_.readableBytes() == 0`. -/
def directWrite (c : ConnS) : Prop :=
  c.channelWriting = false ∧ c.outputBuffer = 0

instance (c : ConnS) : Decidable (directWrite c) := by
  unfold directWrite; infer_instance

/-- `nwrote` after the direct-write attempt (0 when no attempt was made or
the write failed). -/
def sendNwrote (c : ConnS) (wr : WriteRes) : Nat :=
  if directWrite c then
    match wr with
    | .ok n => n
    | .err _ => 0
  else 0

/-- `remaining = len - nwrote`. -/
def sendRemaining (c : ConnS) (len : Nat) (wr : WriteRes) : Nat :=
  len - sendNwrote c wr

/-- `faultError`: a failed direct write with `errno` not `EWOULDBLOCK` and
equal to `EPIPE` or `ECONNRESET`. -/
def sendFault (c : ConnS) (wr : WriteRes) : Bool :=
  if directWrite c then
    match wr with
    | .ok _ => false
    | .err e => decide (e ≠ EWOULDBLOCK ∧ (e = EPIPE ∨ e = ECONNRESET))
  else false

/-- The write-complete enqueue of the direct-write branch:
`remaining == 0 && writeCompleteCallback_` just after a successful write. -/
def sendQueuedDirect (c : ConnS) (len : Nat) (wr : WriteRes) : List CB :=
  if directWrite c ∧ wr.isOk = true ∧ sendRemaining c len wr = 0 ∧
      c.hasWriteCompleteCb = true then
    [CB.writeComplete]
  else []

/-- `TcpConnection::sendInLoop(data, len)`.  Returns unchanged with no
effects when the state is `kDisconnected`; otherwise attempts the direct
write when the channel is not writing and the output buffer is empty, then,
if no fault occurred and bytes remain, checks the high-watermark crossing,
appends the remaining bytes to the output buffer, and enables writing. -/
def sendInLoop (c : ConnS) (len : Nat) (wr : WriteRes) : SendResult :=
  if c.state = ConnState.kDisconnected then
    ⟨c, false, [], false⟩
  else
    let remaining := sendRemaining c len wr
    let q0 := sendQueuedDirect c len wr
    let wrote := decide (directWrite c)
    if sendFault c wr = false ∧ 0 < remaining then
      let oldLen := c.outputBuffer
      let q1 :=
        if c.highWaterMark ≤ oldLen + remaining ∧ oldLen < c.highWaterMark ∧
            c.hasHighWaterMarkCb = true then
          q0 ++ [CB.highWaterMark (oldLen + remaining)]
        else q0
      ⟨{ c with outputBuffer := oldLen + remaining, channelWriting := true },
        wrote, q1, false⟩
    else
      ⟨c, wrote, q0, false⟩

/-- `TcpConnection::handleWrite()`. -/
def handleWrite (c : ConnS) (wr : WriteRes) : SendResult :=
  if c.channelWriting = true then
    match wr with
    | .ok n =>
      if 0 < n then
        let newBuf := c.outputBuffer - n
        if newBuf = 0 then
          let q := if c.hasWriteCompleteCb = true then [CB.writeComplete] else []
          let sd := decide (c.state = ConnState.kDisconnecting)
          ⟨{ c with outputBuffer := 0, channelWriting := false }, true, q, sd⟩
        else
          ⟨{ c with outputBuffer := newBuf }, true, [], false⟩
      else
        ⟨c, true, [], false⟩
    | .err _ => ⟨c, true, [], false⟩
  else
    ⟨c, false, [], false⟩

/-- `TcpConnection::send(message)`, same-thread case: dispatch `sendInLoop`
only when the state is `kConnected`. -/
def send (c : ConnS) (len : Nat) (wr : WriteRes) : SendResult :=
  if c.state = ConnState.kConnected then sendInLoop c len wr
  else ⟨c, false, [], false⟩

/-! ## Supporting lemmas for the send path -/

theorem writeComplete_mem_sendQueuedDirect (c : ConnS) (len : Nat)
    (wr : WriteRes) :
    CB.writeComplete ∈ sendQueuedDirect c len wr ↔
      (directWrite c ∧ wr.isOk = true ∧ sendRemaining c len wr = 0 ∧
        c.hasWriteCompleteCb = true) := by
  unfold sendQueuedDirect
  split
  case isTrue h => simpa using h
  case isFalse h => simpa using h

theorem highWaterMark_notMem_sendQueuedDirect (c : ConnS) (len : Nat)
    (wr : WriteRes) (v : Nat) :
    CB.highWaterMark v ∉ sendQueuedDirect c len wr := by
  unfold sendQueuedDirect
  split <;> simp

theorem writeComplete_mem_sendInLoop (c : ConnS) (len : Nat) (wr : WriteRes) :
    CB.writeComplete ∈ (sendInLoop c len wr).queued ↔
      (¬ c.state = ConnState.kDisconnected ∧
        CB.writeComplete ∈ sendQueuedDirect c len wr) := by
  unfold sendInLoop
  split
  case isTrue h => simp [h]
  case isFalse h =>
    dsimp only
    split
    case isTrue h2 =>
      split
      case isTrue h3 => simp [h, List.mem_append]
      case isFalse h3 => simp [h]
    case isFalse h2 => simp [h]

theorem sendInLoop_outputBuffer_mono (c : ConnS) (len : Nat) (wr : WriteRes) :
    c.outputBuffer ≤ (sendInLoop c len wr).conn.outputBuffer := by
  unfold sendInLoop
  split
  case isTrue h => simp
  case isFalse h =>
    dsimp only
    split
    case isTrue h2 =>
      split
      case isTrue h3 => simp
      case isFalse h3 => simp
    case isFalse h2 => simp

theorem highWaterMark_mem_sendInLoop (c : ConnS) (len : Nat) (wr : WriteRes)
    (v : Nat) :
    CB.highWaterMark v ∈ (sendInLoop c len wr).queued ↔
      (¬ c.state = ConnState.kDisconnected ∧ sendFault c wr = false ∧
        0 < sendRemaining c len wr ∧
        c.highWaterMark ≤ c.outputBuffer + sendRemaining c len wr ∧
        c.outputBuffer < c.highWaterMark ∧ c.hasHighWaterMarkCb = true ∧
        v = c.outputBuffer + sendRemaining c len wr) := by
  unfold sendInLoop
  split
  case isTrue h => simp [h]
  case isFalse h =>
    dsimp only
    split
    case isTrue h2 =>
      split
      case isTrue h3 =>
        simp only [List.mem_append,
          highWaterMark_notMem_sendQueuedDirect c len wr v, false_or,
          List.mem_singleton, CB.highWaterMark.injEq]
        constructor
        · intro hv
          exact ⟨h, h2.1, h2.2, h3.1, h3.2.1, h3.2.2, hv⟩
        · intro hv
          exact hv.2.2.2.2.2.2
      case isFalse h3 =>
        simp only [List.mem_append, List.not_mem_nil]
        constructor
        · intro hv
          exact absurd hv (highWaterMark_notMem_sendQueuedDirect c len wr v)
        · intro hv
          exact absurd ⟨hv.2.2.2.1, hv.2.2.2.2.1, hv.2.2.2.2.2.1⟩ h3
    case isFalse h2 =>
      constructor
      · intro hv
        exact absurd hv (highWaterMark_notMem_sendQueuedDirect c len wr v)
      · intro hv
        exact absurd ⟨hv.2.1, hv.2.2.1⟩ h2

theorem hwm_count_sendInLoop (c : ConnS) (len : Nat) (wr : WriteRes) :
    (((sendInLoop c len wr).queued).filter CB.isHighWaterMark).length ≤ 1 := by
  unfold sendInLoop
  split
  case isTrue h => simp
  case isFalse h =>
    dsimp only
    split
    case isTrue h2 =>
      split
      case isTrue h3 =>
        unfold sendQueuedDirect
        split <;> simp [CB.isHighWaterMark]
      case isFalse h3 =>
        unfold sendQueuedDirect
        split <;> simp [CB.isHighWaterMark]
    case isFalse h2 =>
      unfold sendQueuedDirect
      split <;> simp [CB.isHighWaterMark]

/-! ## Claim C2 -/

/-- **C2, counterexample.**  The write-complete callback is enqueued without
any non-empty-to-empty transition of the output buffer: a connected
connection with an empty output buffer whose direct write succeeds in full
enqueues write-complete while the output buffer is empty before and after
the call, so "enqueued only if the buffer transitions from non-empty to
empty" fails. -/
theorem writeComplete_without_empty_transition :
    CB.writeComplete ∈
        (sendInLoop ⟨ConnState.kConnected, false, 0, 1000, true, true⟩ 4
          (WriteRes.ok 4)).queued ∧
      (⟨ConnState.kConnected, false, 0, 1000, true, true⟩ : ConnS).outputBuffer
        = 0 ∧
      (sendInLoop ⟨ConnState.kConnected, false, 0, 1000, true, true⟩ 4
          (WriteRes.ok 4)).conn.outputBuffer = 0 := by
  decide

/-- **C2 (amended).**  With a write-complete callback installed, the
callback is enqueued exactly when the pending output is fully flushed:
in `handleWrite` (given the write returns at most the readable bytes)
exactly when the output buffer transitions from non-empty to empty; a
failed `handleWrite` write enqueues nothing; and in `sendInLoop` exactly
when the whole message is written directly — in which case the output
buffer was empty before the call and `sendInLoop` never shrinks it, so no
non-empty-to-empty transition occurs at that enqueue site. -/
theorem writeComplete_iff_output_drained (c : ConnS) (n e len : Nat) :
    (n ≤ c.outputBuffer →
      (CB.writeComplete ∈ (handleWrite c (WriteRes.ok n)).queued ↔
        (c.hasWriteCompleteCb = true ∧ c.channelWriting = true ∧
          0 < c.outputBuffer ∧
          (handleWrite c (WriteRes.ok n)).conn.outputBuffer = 0))) ∧
    (handleWrite c (WriteRes.err e)).queued = [] ∧
    (∀ wr, c.outputBuffer ≤ (sendInLoop c len wr).conn.outputBuffer) ∧
    (∀ wr, CB.writeComplete ∈ (sendInLoop c len wr).queued ↔
      (¬ c.state = ConnState.kDisconnected ∧ c.channelWriting = false ∧
        c.outputBuffer = 0 ∧ c.hasWriteCompleteCb = true ∧
        ∃ m, wr = WriteRes.ok m ∧ len ≤ m)) := by
  refine ⟨?_, ?_, fun wr => sendInLoop_outputBuffer_mono c len wr, fun wr => ?_⟩
  · intro hn
    unfold handleWrite
    by_cases hw : c.channelWriting = true
    · rw [if_pos hw]
      dsimp only
      by_cases hp : 0 < n
      · rw [if_pos hp]
        by_cases hz : c.outputBuffer - n = 0
        · rw [if_pos hz]
          by_cases hcb : c.hasWriteCompleteCb = true
          · simp [hcb, hw]
            omega
          · simp [hcb]
        · rw [if_neg hz]
          simp [hw]
          rintro h1 h2 h3
          omega
      · rw [if_neg hp]
        simp [hw]
        rintro h1 h2 h3
        omega
    · rw [if_neg hw]
      simp [hw]
  · unfold handleWrite
    split
    case isTrue h => rfl
    case isFalse h => rfl
  · rw [writeComplete_mem_sendInLoop, writeComplete_mem_sendQueuedDirect]
    cases wr with
    | ok m =>
      by_cases hd : directWrite c
      · have hd2 := hd
        unfold directWrite at hd2
        simp [sendRemaining, sendNwrote, hd, WriteRes.isOk,
          Nat.sub_eq_zero_iff_le, hd2.1, hd2.2]
        tauto
      · have hd2 := hd
        unfold directWrite at hd2
        simp [hd, WriteRes.isOk]
        intro h1 h2 h3
        exact absurd ⟨h2, h3⟩ hd2
    | err e2 =>
      simp [WriteRes.isOk]

/-- **C2, witness.** -/
theorem writeComplete_iff_output_drained_witness :
    CB.writeComplete ∈ (handleWrite
        ⟨ConnState.kConnected, true, 5, 64, true, false⟩
        (WriteRes.ok 5)).queued ∧
      CB.writeComplete ∈ (sendInLoop
        ⟨ConnState.kConnected, false, 0, 64, true, false⟩ 3
        (WriteRes.ok 3)).queued := by
  constructor
  · exact ((writeComplete_iff_output_drained
      ⟨ConnState.kConnected, true, 5, 64, true, false⟩ 5 0 3).1
        (by decide)).2 ⟨rfl, rfl, by decide, by decide⟩
  · exact ((writeComplete_iff_output_drained
      ⟨ConnState.kConnected, false, 0, 64, true, false⟩ 3 0 3).2.2.2
        (WriteRes.ok 3)).2 ⟨by decide, rfl, rfl, rfl, 3, rfl, by decide⟩

/-! ## Claim C3 -/

/-- **C3.**  With a high-watermark callback installed and the connection not
disconnected, `sendInLoop` enqueues the high-watermark callback exactly when
the bytes left unwritten by the direct-write attempt are actually appended
(no fault, remaining > 0) and appending them moves the buffered-output total
from strictly below the threshold to at-or-above it; it is delivered with
the new total `oldLen + remaining`, and at most one such callback is
enqueued per call. -/
theorem highWaterMark_fires_iff_crossing (c : ConnS) (len : Nat)
    (wr : WriteRes) (hcb : c.hasHighWaterMarkCb = true)
    (hst : ¬ c.state = ConnState.kDisconnected) :
    ((∃ v, CB.highWaterMark v ∈ (sendInLoop c len wr).queued) ↔
      (sendFault c wr = false ∧ 0 < sendRemaining c len wr ∧
        c.outputBuffer < c.highWaterMark ∧
        c.highWaterMark ≤ c.outputBuffer + sendRemaining c len wr)) ∧
    (∀ v, CB.highWaterMark v ∈ (sendInLoop c len wr).queued →
      v = c.outputBuffer + sendRemaining c len wr) ∧
    (((sendInLoop c len wr).queued).filter CB.isHighWaterMark).length ≤ 1 := by
  refine ⟨?_, ?_, hwm_count_sendInLoop c len wr⟩
  · constructor
    · rintro ⟨v, hv⟩
      rw [highWaterMark_mem_sendInLoop] at hv
      exact ⟨hv.2.1, hv.2.2.1, hv.2.2.2.2.1, hv.2.2.2.1⟩
    · rintro ⟨hf, hr, hlt, hge⟩
      exact ⟨c.outputBuffer + sendRemaining c len wr,
        (highWaterMark_mem_sendInLoop c len wr _).2
          ⟨hst, hf, hr, hge, hlt, hcb, rfl⟩⟩
  · intro v hv
    exact ((highWaterMark_mem_sendInLoop c len wr v).1 hv).2.2.2.2.2.2

/-- **C3, witness.** -/
theorem highWaterMark_fires_iff_crossing_witness :
    ∃ v, CB.highWaterMark v ∈ (sendInLoop
      ⟨ConnState.kConnected, false, 0, 10, true, true⟩ 12
      (WriteRes.ok 2)).queued :=
  ((highWaterMark_fires_iff_crossing
      ⟨ConnState.kConnected, false, 0, 10, true, true⟩ 12 (WriteRes.ok 2)
      (by decide) (by decide)).1).2 ⟨by decide, by decide, by decide, by decide⟩

/-! ## Claim C10 -/

/-- **C10.**  `send` dispatches `sendInLoop` only in the connected state: in
the connecting, disconnecting and disconnected states it performs no socket
write, queues no callback, issues no shutdown and leaves the connection
unchanged; and `sendInLoop` itself, when it runs with the state already
disconnected, drops the message the same way (only warning). -/
theorem send_noop_unless_connected (c : ConnS) (len : Nat) (wr : WriteRes) :
    (¬ c.state = ConnState.kConnected →
      send c len wr = ⟨c, false, [], false⟩) ∧
    (c.state = ConnState.kDisconnected →
      sendInLoop c len wr = ⟨c, false, [], false⟩) := by
  constructor
  · intro h
    unfold send
    rw [if_neg h]
  · intro h
    unfold sendInLoop
    rw [if_pos h]

/-- **C10, witness.** -/
theorem send_noop_unless_connected_witness :
    send ⟨ConnState.kConnecting, false, 0, 64, true, true⟩ 5 (WriteRes.ok 5)
        = ⟨⟨ConnState.kConnecting, false, 0, 64, true, true⟩, false, [], false⟩ ∧
      sendInLoop ⟨ConnState.kDisconnected, false, 0, 64, true, true⟩ 5
          (WriteRes.ok 5)
        = ⟨⟨ConnState.kDisconnected, false, 0, 64, true, true⟩, false, [],
            false⟩ :=
  ⟨(send_noop_unless_connected ⟨ConnState.kConnecting, false, 0, 64, true,
      true⟩ 5 (WriteRes.ok 5)).1 (by decide),
   (send_noop_unless_connected ⟨ConnState.kDisconnected, false, 0, 64, true,
      true⟩ 5 (WriteRes.ok 5)).2 (by decide)⟩

/-! ### TimerQueue (muduo/net/TimerQueue.cc, Timer.h, Timer.cc)

A live `Timer*` is identified by `tid` (the pointer identity); `seq` is the
globally unique sequence number, `expiration` a monotonic timestamp and
`interval` the repeat interval (strictly positive means repeating), both in
abstract microsecond units.  `timers_` (keyed `(expiration, ptr)`) and
`activeTimers_` (keyed `(ptr, seq)`) are both modelled as `Finset Timer`:
each C++ set holds one entry per timer, so the sets of underlying timers are
what the keys index. -/

structure Timer where
  tid : Nat
  seq : Nat
  expiration : Nat
  interval : Nat
deriving Repr, DecidableEq

namespace Timer

/-- `repeat_ = interval > 0.0` -/
def repeatF (t : Timer) : Bool := decide (0 < t.interval)

/-- `Timer::restart(now)` : repeating timers move to `now + interval`,
one-shot timers to the invalid timestamp (0). -/
def restart (t : Timer) (now : Nat) : Timer :=
  if 0 < t.interval then { t with expiration := now + t.interval }
  else { t with expiration := 0 }

end Timer

/-- The state of `TimerQueue` touched by insert/cancel/getExpired/reset. -/
structure TimerQueueS where
  timers : Finset Timer
  activeTimers : Finset Timer
  callingExpiredTimers : Bool
  cancelingTimers : Finset (Nat × Nat)
deriving DecidableEq

namespace TimerQueueS

/-- `TimerQueue::insert(timer)` : compute whether the new timer expires
before every queued one (`timers_.begin()` comparison), then insert into
both sets.  Returns the new state and `earliestChanged`. -/
def insertTimer (s : TimerQueueS) (t : Timer) : TimerQueueS × Bool :=
  let earliestChanged := decide (∀ u ∈ s.timers, t.expiration < u.expiration)
  ({ s with
      timers := insert t s.timers
      activeTimers := insert t s.activeTimers },
   earliestChanged)

/-- `TimerQueue::cancelInLoop(timerId)` : look the id up in `activeTimers_`
by `(ptr, seq)`; if found erase the timer from both sets (and delete it);
otherwise, if expired callbacks are running, record the id in
`cancelingTimers_`. -/
def cancelInLoop (s : TimerQueueS) (id : Nat × Nat) : TimerQueueS :=
  if (s.activeTimers.filter (fun t => t.tid = id.1 ∧ t.seq = id.2)).Nonempty then
    { s with
      timers := s.timers.filter (fun t => ¬(t.tid = id.1 ∧ t.seq = id.2))
      activeTimers :=
        s.activeTimers.filter (fun t => ¬(t.tid = id.1 ∧ t.seq = id.2)) }
  else if s.callingExpiredTimers = true then
    { s with cancelingTimers := insert id s.cancelingTimers }
  else s

/-- `TimerQueue::getExpired(now)` : all entries with key below the sentry
`(now, UINTPTR_MAX)` — i.e. with `expiration ≤ now` — are removed from
`timers_` and erased from `activeTimers_`, and returned. -/
def getExpired (s : TimerQueueS) (now : Nat) : Finset Timer × TimerQueueS :=
  let expired := s.timers.filter (fun t => t.expiration ≤ now)
  (expired,
   { s with
      timers := s.timers.filter (fun t => ¬ t.expiration ≤ now)
      activeTimers := s.activeTimers \ expired })

/-- The expired timers `TimerQueue::reset` restarts and reinserts: those
with `repeat()` whose `(ptr, seq)` id is not in `cancelingTimers_`. -/
def resetReinserted (s : TimerQueueS) (expired : Finset Timer) (now : Nat) :
    Finset Timer :=
  (expired.filter
      (fun t => 0 < t.interval ∧ (t.tid, t.seq) ∉ s.cancelingTimers)).image
    (fun t => t.restart now)

/-- `TimerQueue::reset(expired, now)` : reinsert the restarted repeating
uncancelled timers into both sets; the rest are destroyed. -/
def reset (s : TimerQueueS) (expired : Finset Timer) (now : Nat) :
    TimerQueueS :=
  { s with
    timers := s.timers ∪ resetReinserted s expired now
    activeTimers := s.activeTimers ∪ resetReinserted s expired now }

end TimerQueueS

/-! ## Supporting lemmas for the timer queue -/

theorem restart_tid (t : Timer) (now : Nat) : (t.restart now).tid = t.tid := by
  unfold Timer.restart
  split <;> rfl

theorem restart_seq (t : Timer) (now : Nat) : (t.restart now).seq = t.seq := by
  unfold Timer.restart
  split <;> rfl

/-! ## Claim C9 -/

/-- **C9.**  `timers_` and `activeTimers_` always hold exactly the same
timers (hence equal sizes), and each of insert, cancelInLoop, the
getExpired extraction and the reset reinsertion preserves that equality. -/
theorem timers_active_same_set (s : TimerQueueS) (t : Timer) (id : Nat × Nat)
    (now : Nat) (expired : Finset Timer)
    (hinv : s.timers = s.activeTimers) :
    s.timers.card = s.activeTimers.card ∧
      ((s.insertTimer t).1).timers = ((s.insertTimer t).1).activeTimers ∧
      (s.cancelInLoop id).timers = (s.cancelInLoop id).activeTimers ∧
      ((s.getExpired now).2).timers = ((s.getExpired now).2).activeTimers ∧
      (s.reset expired now).timers = (s.reset expired now).activeTimers := by
  refine ⟨by rw [hinv], ?_, ?_, ?_, ?_⟩
  · unfold TimerQueueS.insertTimer
    simp [hinv]
  · unfold TimerQueueS.cancelInLoop
    split
    case isTrue h => simp [hinv]
    case isFalse h =>
      split
      case isTrue h2 => simpa using hinv
      case isFalse h2 => exact hinv
  · unfold TimerQueueS.getExpired
    dsimp only
    rw [hinv, Finset.filter_not]
  · unfold TimerQueueS.reset
    simp [hinv]

/-- **C9, witness.** -/
theorem timers_active_same_set_witness :
    (((⟨{⟨1, 1, 5, 3⟩}, {⟨1, 1, 5, 3⟩}, false, ∅⟩ :
        TimerQueueS).insertTimer ⟨2, 2, 7, 0⟩).1).timers
      = (((⟨{⟨1, 1, 5, 3⟩}, {⟨1, 1, 5, 3⟩}, false, ∅⟩ :
        TimerQueueS).insertTimer ⟨2, 2, 7, 0⟩).1).activeTimers :=
  (timers_active_same_set ⟨{⟨1, 1, 5, 3⟩}, {⟨1, 1, 5, 3⟩}, false, ∅⟩
    ⟨2, 2, 7, 0⟩ (1, 1) 10 ∅ rfl).2.1

/-! ## Claim C4 -/

/-- **C4.**  If `cancel(id)` runs while expired callbacks are being
dispatched (`callingExpiredTimers_` is set) and the id is not in the active
set, then the id is recorded in `cancelingTimers_`; and `reset` never
reinserts a timer carrying that id — in particular the restarted image of a
repeating expired timer with that id is not reinserted, so every timer with
that id left after `reset` was already in the queue before (none is: the
timer was removed by `getExpired`), hence a timer cancelled during its own
callback never fires again. -/
theorem cancel_during_callback_never_refires (s : TimerQueueS)
    (id : Nat × Nat) (expired : Finset Timer) (now : Nat)
    (hcalling : s.callingExpiredTimers = true)
    (hnotactive : ∀ u ∈ s.activeTimers, ¬(u.tid = id.1 ∧ u.seq = id.2)) :
    id ∈ (s.cancelInLoop id).cancelingTimers ∧
      (∀ t ∈ expired, t.tid = id.1 → t.seq = id.2 →
        t.restart now ∉
          TimerQueueS.resetReinserted (s.cancelInLoop id) expired now) ∧
      (∀ u ∈ ((s.cancelInLoop id).reset expired now).timers,
        u.tid = id.1 → u.seq = id.2 → u ∈ (s.cancelInLoop id).timers) := by
  obtain ⟨i1, i2⟩ := id
  have hfilter : s.activeTimers.filter
      (fun u => u.tid = i1 ∧ u.seq = i2) = ∅ := by
    rw [Finset.filter_eq_empty_iff]
    exact fun u hu => hnotactive u hu
  have hs1 : s.cancelInLoop (i1, i2)
      = { s with cancelingTimers := insert (i1, i2) s.cancelingTimers } := by
    unfold TimerQueueS.cancelInLoop
    rw [if_neg (by rw [hfilter]; exact Finset.not_nonempty_empty),
      if_pos hcalling]
  have hcancel : ∀ u : Timer, u.tid = i1 → u.seq = i2 →
      ((u.tid, u.seq) ∉ (s.cancelInLoop (i1, i2)).cancelingTimers) → False := by
    intro u h1 h2 hmem
    rw [hs1] at hmem
    exact hmem (by rw [h1, h2]; exact Finset.mem_insert_self _ _)
  have hnotre : ∀ u : Timer, u.tid = i1 → u.seq = i2 →
      u ∉ TimerQueueS.resetReinserted (s.cancelInLoop (i1, i2)) expired now := by
    intro u h1 h2 hmem
    unfold TimerQueueS.resetReinserted at hmem
    obtain ⟨w, hw, hequ⟩ := Finset.mem_image.1 hmem
    obtain ⟨hwexp, hwrep, hwnc⟩ := Finset.mem_filter.1 hw
    refine hcancel w ?_ ?_ hwnc
    · rw [← restart_tid w now, hequ, h1]
    · rw [← restart_seq w now, hequ, h2]
  refine ⟨by rw [hs1]; exact Finset.mem_insert_self _ _, ?_, ?_⟩
  · intro t ht h1 h2
    exact hnotre (t.restart now) (by rw [restart_tid, h1])
      (by rw [restart_seq, h2])
  · intro u hu h1 h2
    unfold TimerQueueS.reset at hu
    rcases Finset.mem_union.1 hu with hu2 | hu2
    · exact hu2
    · exact absurd hu2 (hnotre u h1 h2)

/-- **C4, witness.** -/
theorem cancel_during_callback_never_refires_witness :
    (1, 1) ∈ ((⟨∅, ∅, true, ∅⟩ : TimerQueueS).cancelInLoop
      (1, 1)).cancelingTimers :=
  (cancel_during_callback_never_refires ⟨∅, ∅, true, ∅⟩ (1, 1)
    {⟨1, 1, 5, 3⟩} 10 rfl (by decide)).1

/-! ### Channel (muduo/net/Channel.cc)

The received-event mask is a `Nat` with the Linux `poll.h` bit values.
`handleEventWithGuard` is modelled as the ordered list of handler
invocations (and the POLLNVAL log) it performs. -/

namespace Channel

def POLLIN : Nat := 1
def POLLPRI : Nat := 2
def POLLOUT : Nat := 4
def POLLERR : Nat := 8
def POLLHUP : Nat := 16
def POLLNVAL : Nat := 32
def POLLRDHUP : Nat := 8192

/-- The observable actions of `handleEventWithGuard`, in program order:
handler invocations plus the POLLNVAL warning log. -/
inductive HEvent where
  | closeH
  | logNvalH
  | errorH
  | readH (receiveTime : Nat)
  | writeH
deriving Repr, DecidableEq

/-- Which of the four callback slots are installed. -/
structure Callbacks where
  hasClose : Bool
  hasError : Bool
  hasRead : Bool
  hasWrite : Bool
deriving Repr, DecidableEq

/-- `if (mask-condition) { if (callback) callback(); }` -/
def gated (cond : Prop) [Decidable cond] (installed : Bool) (e : HEvent) :
    List HEvent :=
  if cond then (if installed then [e] else []) else []

/-- `Channel::handleEventWithGuard(receiveTime)` : the sequence of handler
invocations, gated by the received-event mask `revents` exactly as in the
source. -/
def handleEventWithGuard (revents : Nat) (receiveTime : Nat)
    (cb : Callbacks) : List HEvent :=
  gated (revents &&& POLLHUP ≠ 0 ∧ revents &&& POLLIN = 0) cb.hasClose
      HEvent.closeH
  ++ (if revents &&& POLLNVAL ≠ 0 then [HEvent.logNvalH] else [])
  ++ gated (revents &&& (POLLERR ||| POLLNVAL) ≠ 0) cb.hasError HEvent.errorH
  ++ gated (revents &&& (POLLIN ||| POLLPRI ||| POLLRDHUP) ≠ 0) cb.hasRead
      (HEvent.readH receiveTime)
  ++ gated (revents &&& POLLOUT ≠ 0) cb.hasWrite HEvent.writeH

end Channel

/-! ## Supporting lemmas for the channel dispatch -/

namespace Channel

theorem or_eq_zero (m n : Nat) : m ||| n = 0 ↔ m = 0 ∧ n = 0 := by
  constructor
  · intro h
    refine ⟨Nat.eq_of_testBit_eq fun i => ?_, Nat.eq_of_testBit_eq fun i => ?_⟩ <;>
    · have h2 := congrArg (fun x => Nat.testBit x i) h
      simp [Nat.testBit_or] at h2
      simp [h2]
  · rintro ⟨rfl, rfl⟩
    rfl

theorem and_pow_two_ne_zero (m k : Nat) : m &&& 2 ^ k ≠ 0 ↔ m.testBit k := by
  rw [Nat.and_two_pow]
  cases h : m.testBit k <;> simp [h]

theorem gated_mem (c : Prop) [Decidable c] (inst : Bool) (x e : HEvent) :
    e ∈ gated c inst x ↔ (c ∧ inst = true ∧ e = x) := by
  unfold gated
  split_ifs <;> simp_all

theorem singleton_ite_mem (c : Prop) [Decidable c] (x e : HEvent) :
    e ∈ (if c then [x] else ([] : List HEvent)) ↔ (c ∧ e = x) := by
  split_ifs <;> simp_all

theorem gated_sublist (c : Prop) [Decidable c] (inst : Bool) (x : HEvent) :
    List.Sublist (gated c inst x) [x] := by
  unfold gated
  split_ifs
  · exact List.Sublist.refl _
  · exact List.nil_sublist _
  · exact List.nil_sublist _

theorem singleton_ite_sublist (c : Prop) [Decidable c] (x : HEvent) :
    List.Sublist (if c then [x] else ([] : List HEvent)) [x] := by
  split_ifs
  · exact List.Sublist.refl _
  · exact List.nil_sublist _

end Channel

/-! ## Claim C5 -/

namespace Channel

theorem mask_in_iff (revents : Nat) :
    revents &&& POLLIN ≠ 0 ↔ revents.testBit 0 :=
  and_pow_two_ne_zero revents 0

theorem mask_pri_iff (revents : Nat) :
    revents &&& POLLPRI ≠ 0 ↔ revents.testBit 1 :=
  and_pow_two_ne_zero revents 1

theorem mask_out_iff (revents : Nat) :
    revents &&& POLLOUT ≠ 0 ↔ revents.testBit 2 :=
  and_pow_two_ne_zero revents 2

theorem mask_err_iff (revents : Nat) :
    revents &&& POLLERR ≠ 0 ↔ revents.testBit 3 :=
  and_pow_two_ne_zero revents 3

theorem mask_hup_iff (revents : Nat) :
    revents &&& POLLHUP ≠ 0 ↔ revents.testBit 4 :=
  and_pow_two_ne_zero revents 4

theorem mask_nval_iff (revents : Nat) :
    revents &&& POLLNVAL ≠ 0 ↔ revents.testBit 5 :=
  and_pow_two_ne_zero revents 5

theorem mask_rdhup_iff (revents : Nat) :
    revents &&& POLLRDHUP ≠ 0 ↔ revents.testBit 13 :=
  and_pow_two_ne_zero revents 13

theorem mask_errnval_iff (revents : Nat) :
    revents &&& (POLLERR ||| POLLNVAL) ≠ 0 ↔
      (revents.testBit 3 ∨ revents.testBit 5) := by
  simp only [Nat.and_or_distrib_left, Ne, or_eq_zero, not_and_or]
  exact or_congr (mask_err_iff revents) (mask_nval_iff revents)

theorem mask_read_iff (revents : Nat) :
    revents &&& (POLLIN ||| POLLPRI ||| POLLRDHUP) ≠ 0 ↔
      (revents.testBit 0 ∨ revents.testBit 1 ∨ revents.testBit 13) := by
  simp only [Nat.and_or_distrib_left, Ne, or_eq_zero, not_and_or]
  rw [or_assoc]
  exact or_congr (mask_in_iff revents)
    (or_congr (mask_pri_iff revents) (mask_rdhup_iff revents))

theorem mask_in_zero_iff (revents : Nat) :
    revents &&& POLLIN = 0 ↔ ¬ revents.testBit 0 := by
  rw [← mask_in_iff revents]
  exact not_not.symm

theorem close_iff (revents ts : Nat) :
    HEvent.closeH ∈ handleEventWithGuard revents ts ⟨true, true, true, true⟩ ↔
      (revents.testBit 4 ∧ ¬ revents.testBit 0) := by
  simp only [handleEventWithGuard, List.mem_append, gated_mem,
    singleton_ite_mem]
  simp only [and_true, true_and, reduceCtorEq, and_false, false_or, or_false]
  rw [mask_hup_iff, mask_in_zero_iff]

theorem lognval_iff (revents ts : Nat) :
    HEvent.logNvalH ∈
        handleEventWithGuard revents ts ⟨true, true, true, true⟩ ↔
      revents.testBit 5 := by
  simp only [handleEventWithGuard, List.mem_append, gated_mem,
    singleton_ite_mem]
  simp only [and_true, true_and, reduceCtorEq, and_false, false_or, or_false]
  exact mask_nval_iff revents

theorem error_iff (revents ts : Nat) :
    HEvent.errorH ∈ handleEventWithGuard revents ts ⟨true, true, true, true⟩ ↔
      (revents.testBit 3 ∨ revents.testBit 5) := by
  simp only [handleEventWithGuard, List.mem_append, gated_mem,
    singleton_ite_mem]
  simp only [and_true, true_and, reduceCtorEq, and_false, false_or, or_false]
  exact mask_errnval_iff revents

theorem read_iff (revents ts : Nat) : ∀ t,
    HEvent.readH t ∈ handleEventWithGuard revents ts ⟨true, true, true, true⟩ ↔
      (t = ts ∧ (revents.testBit 0 ∨ revents.testBit 1 ∨
        revents.testBit 13)) := by
  intro t
  simp only [handleEventWithGuard, List.mem_append, gated_mem,
    singleton_ite_mem]
  simp only [and_true, true_and, reduceCtorEq, and_false, false_or, or_false,
    HEvent.readH.injEq]
  rw [mask_read_iff]
  tauto

theorem write_iff (revents ts : Nat) :
    HEvent.writeH ∈ handleEventWithGuard revents ts ⟨true, true, true, true⟩ ↔
      revents.testBit 2 := by
  simp only [handleEventWithGuard, List.mem_append, gated_mem,
    singleton_ite_mem]
  simp only [and_true, true_and, reduceCtorEq, and_false, false_or, or_false]
  exact mask_out_iff revents

theorem order_sublist (revents ts : Nat) :
    List.Sublist (handleEventWithGuard revents ts ⟨true, true, true, true⟩)
      [HEvent.closeH, HEvent.logNvalH, HEvent.errorH, HEvent.readH ts,
        HEvent.writeH] := by
  unfold handleEventWithGuard
  exact ((((gated_sublist _ _ _).append (singleton_ite_sublist _ _)).append
      (gated_sublist _ _ _)).append (gated_sublist _ _ _)).append
      (gated_sublist _ _ _)

end Channel

/-- **C5.**  With all four handlers installed, `handleEventWithGuard`
dispatches, gated by the received mask and in this fixed order:
(1) the close handler exactly when hangup (bit 4, POLLHUP) is set and
readable (bit 0, POLLIN) is not; (2) the invalid-descriptor warning exactly
when POLLNVAL (bit 5) is set; (3) the error handler exactly when POLLERR
(bit 3) or POLLNVAL is set; (4) the read handler, with the loop's
poll-return timestamp, exactly when POLLIN, POLLPRI (bit 1) or POLLRDHUP
(bit 13) is set; (5) the write handler exactly when POLLOUT (bit 2) is set.
The invocation list is a sublist of the canonical order
close, nval-log, error, read, write. -/
theorem channel_dispatch_order (revents ts : Nat) :
    (Channel.HEvent.closeH ∈
        Channel.handleEventWithGuard revents ts ⟨true, true, true, true⟩ ↔
      (revents.testBit 4 ∧ ¬ revents.testBit 0)) ∧
    (Channel.HEvent.logNvalH ∈
        Channel.handleEventWithGuard revents ts ⟨true, true, true, true⟩ ↔
      revents.testBit 5) ∧
    (Channel.HEvent.errorH ∈
        Channel.handleEventWithGuard revents ts ⟨true, true, true, true⟩ ↔
      (revents.testBit 3 ∨ revents.testBit 5)) ∧
    (∀ t, Channel.HEvent.readH t ∈
        Channel.handleEventWithGuard revents ts ⟨true, true, true, true⟩ ↔
      (t = ts ∧ (revents.testBit 0 ∨ revents.testBit 1 ∨
        revents.testBit 13))) ∧
    (Channel.HEvent.writeH ∈
        Channel.handleEventWithGuard revents ts ⟨true, true, true, true⟩ ↔
      revents.testBit 2) ∧
    List.Sublist (Channel.handleEventWithGuard revents ts
        ⟨true, true, true, true⟩)
      [Channel.HEvent.closeH, Channel.HEvent.logNvalH, Channel.HEvent.errorH,
        Channel.HEvent.readH ts, Channel.HEvent.writeH] :=
  ⟨Channel.close_iff revents ts, Channel.lognval_iff revents ts,
    Channel.error_iff revents ts, Channel.read_iff revents ts,
    Channel.write_iff revents ts, Channel.order_sublist revents ts⟩

/-! ### Connector (muduo/net/Connector.cc, Connector.h) -/

namespace Connector

inductive CState where
  | kDisconnected
  | kConnecting
  | kConnected
deriving Repr, DecidableEq

def kMaxRetryDelayMs : Nat := 30 * 1000
def kInitRetryDelayMs : Nat := 500

def EPERM : Nat := 1
def EINTR : Nat := 4
def EBADF : Nat := 9
def EAGAIN : Nat := 11
def EACCES : Nat := 13
def EFAULT : Nat := 14
def ENOTSOCK : Nat := 88
def EAFNOSUPPORT : Nat := 97
def EADDRINUSE : Nat := 98
def EADDRNOTAVAIL : Nat := 99
def ENETUNREACH : Nat := 101
def EISCONN : Nat := 106
def ECONNREFUSED : Nat := 111
def EALREADY : Nat := 114
def EINPROGRESS : Nat := 115

/-- The Connector fields these paths use. -/
structure ConnectorS where
  connectF : Bool
  state : CState
  retryDelayMs : Nat
  channelInstalled : Bool
  channelWriteEnabled : Bool
deriving Repr, DecidableEq

/-- `Connector(loop, serverAddr)` : disconnected, not connecting, initial
retry delay. -/
def mkConnector : ConnectorS :=
  { connectF := false
    state := CState.kDisconnected
    retryDelayMs := kInitRetryDelayMs
    channelInstalled := false
    channelWriteEnabled := false }

/-- Result of `connect()` / `retry()` : new state, whether the socket fd was
closed, and the delay (ms) after which `startInLoop` was scheduled, if any. -/
structure ConnectResult where
  conn : ConnectorS
  socketClosed : Bool
  scheduledStartDelayMs : Option Nat
deriving Repr, DecidableEq

/-- `Connector::connecting(sockfd)` : state becomes connecting, a channel is
created for the socket and write-enabled. -/
def connecting (c : ConnectorS) : ConnectorS :=
  { c with
    state := CState.kConnecting
    channelInstalled := true
    channelWriteEnabled := true }

/-- `Connector::retry(sockfd)` : close the fd, go disconnected; if the
connect flag is still set schedule `startInLoop` after the current delay and
double the delay capped at `kMaxRetryDelayMs`. -/
def retry (c : ConnectorS) : ConnectResult :=
  let c1 := { c with state := CState.kDisconnected }
  if c.connectF = true then
    { conn := { c1 with
        retryDelayMs := min (c1.retryDelayMs * 2) kMaxRetryDelayMs }
      socketClosed := true
      scheduledStartDelayMs := some c1.retryDelayMs }
  else
    { conn := c1, socketClosed := true, scheduledStartDelayMs := none }

/-- `Connector::restart()` : disconnected, delay back to initial, connect
flag set (then `startInLoop` re-enters `connect`). -/
def restart (c : ConnectorS) : ConnectorS :=
  { c with
    state := CState.kDisconnected
    retryDelayMs := kInitRetryDelayMs
    connectF := true }

/-- The errno values `Connector::connect` sends to `connecting`. -/
def connectingErrnos : List Nat := [0, EINPROGRESS, EINTR, EISCONN]

/-- The errno values `Connector::connect` sends to `retry`. -/
def retryErrnos : List Nat :=
  [EAGAIN, EADDRINUSE, EADDRNOTAVAIL, ECONNREFUSED, ENETUNREACH]

/-- The errno values of the explicit log-and-close branch. -/
def abandonErrnos : List Nat :=
  [EACCES, EPERM, EAFNOSUPPORT, EALREADY, EBADF, EFAULT, ENOTSOCK]

/-- `Connector::connect()` after the `::connect` call returned with
`savedErrno` : the switch over the errno. -/
def connect (c : ConnectorS) (savedErrno : Nat) : ConnectResult :=
  if savedErrno ∈ connectingErrnos then
    { conn := connecting c, socketClosed := false,
      scheduledStartDelayMs := none }
  else if savedErrno ∈ retryErrnos then
    retry c
  else if savedErrno ∈ abandonErrnos then
    { conn := c, socketClosed := true, scheduledStartDelayMs := none }
  else
    { conn := c, socketClosed := true, scheduledStartDelayMs := none }

end Connector

/-! ## Claim C6 -/

/-- **C6.**  The errno switch of `Connector::connect` : 0, EINPROGRESS,
EINTR and EISCONN enter the connecting state (a channel is installed and
write-enabled, the socket stays open); EAGAIN, EADDRINUSE, EADDRNOTAVAIL,
ECONNREFUSED and ENETUNREACH close the socket, set disconnected, and
schedule a retry after the current delay when the connect flag is set;
every other errno closes the socket and abandons the attempt: nothing is
scheduled and the connector state is unchanged (in particular it does not
become connecting). -/
theorem connector_connect_errno_classification (c : Connector.ConnectorS)
    (e : Nat) :
    (e ∈ Connector.connectingErrnos →
      (Connector.connect c e).conn.state = Connector.CState.kConnecting ∧
        (Connector.connect c e).conn.channelInstalled = true ∧
        (Connector.connect c e).conn.channelWriteEnabled = true ∧
        (Connector.connect c e).socketClosed = false ∧
        (Connector.connect c e).scheduledStartDelayMs = none) ∧
    (e ∈ Connector.retryErrnos →
      (Connector.connect c e).socketClosed = true ∧
        (Connector.connect c e).conn.state = Connector.CState.kDisconnected ∧
        (c.connectF = true →
          (Connector.connect c e).scheduledStartDelayMs
            = some c.retryDelayMs) ∧
        (c.connectF = false →
          (Connector.connect c e).scheduledStartDelayMs = none)) ∧
    (e ∉ Connector.connectingErrnos → e ∉ Connector.retryErrnos →
      (Connector.connect c e).conn = c ∧
        (Connector.connect c e).socketClosed = true ∧
        (Connector.connect c e).scheduledStartDelayMs = none) := by
  refine ⟨?_, ?_, ?_⟩
  · intro h
    unfold Connector.connect
    rw [if_pos h]
    exact ⟨rfl, rfl, rfl, rfl, rfl⟩
  · intro h
    have hnc : ¬ e ∈ Connector.connectingErrnos := by
      simp only [Connector.retryErrnos, Connector.EAGAIN,
        Connector.EADDRINUSE, Connector.EADDRNOTAVAIL,
        Connector.ECONNREFUSED, Connector.ENETUNREACH, List.mem_cons,
        List.not_mem_nil, or_false] at h
      simp only [Connector.connectingErrnos, Connector.EINPROGRESS,
        Connector.EINTR, Connector.EISCONN, List.mem_cons,
        List.not_mem_nil, or_false]
      omega
    unfold Connector.connect
    rw [if_neg hnc, if_pos h]
    unfold Connector.retry
    by_cases hcf : c.connectF = true
    · rw [if_pos hcf]
      exact ⟨rfl, rfl, fun _ => rfl, fun hf => by rw [hcf] at hf; cases hf⟩
    · rw [if_neg hcf]
      exact ⟨rfl, rfl, fun ht => absurd ht hcf, fun _ => rfl⟩
  · intro h1 h2
    unfold Connector.connect
    rw [if_neg h1, if_neg h2]
    split
    · exact ⟨rfl, rfl, rfl⟩
    · exact ⟨rfl, rfl, rfl⟩

/-- **C6, witness.** -/
theorem connector_connect_errno_classification_witness :
    (Connector.connect Connector.mkConnector 115).conn.state
        = Connector.CState.kConnecting ∧
      (Connector.connect { Connector.mkConnector with connectF := true }
          111).scheduledStartDelayMs = some 500 ∧
      (Connector.connect Connector.mkConnector 13).conn
        = Connector.mkConnector := by
  refine ⟨((connector_connect_errno_classification Connector.mkConnector
      115).1 (by decide)).1, ?_,
    ((connector_connect_errno_classification Connector.mkConnector 13).2.2
      (by decide) (by decide)).1⟩
  exact ((connector_connect_errno_classification
    { Connector.mkConnector with connectF := true } 111).2.1
      (by decide)).2.2.1 rfl

/-! ## Claim C7 -/

/-- **C7.**  The retry delay starts at `kInitRetryDelayMs = 500` ms; a
retry with the connect flag still set schedules `startInLoop` after the
current delay and then doubles the delay capped at 30000 ms; `restart`
resets the delay to the initial 500 ms (and re-enters the start path with
the connect flag set and state disconnected). -/
theorem connector_retry_backoff (c : Connector.ConnectorS) :
    Connector.mkConnector.retryDelayMs = 500 ∧
      Connector.kInitRetryDelayMs = 500 ∧
      (c.connectF = true →
        (Connector.retry c).scheduledStartDelayMs = some c.retryDelayMs ∧
          (Connector.retry c).conn.retryDelayMs
            = min (2 * c.retryDelayMs) 30000 ∧
          (Connector.retry c).conn.state = Connector.CState.kDisconnected) ∧
      (Connector.restart c).retryDelayMs = 500 ∧
      (Connector.restart c).connectF = true ∧
      (Connector.restart c).state = Connector.CState.kDisconnected := by
  refine ⟨rfl, rfl, ?_, rfl, rfl, rfl⟩
  intro h
  unfold Connector.retry
  rw [if_pos h]
  refine ⟨rfl, ?_, rfl⟩
  show min (c.retryDelayMs * 2) Connector.kMaxRetryDelayMs
      = min (2 * c.retryDelayMs) 30000
  unfold Connector.kMaxRetryDelayMs
  omega

/-- **C7, witness.** -/
theorem connector_retry_backoff_witness :
    (Connector.retry { Connector.mkConnector with
        connectF := true }).scheduledStartDelayMs = some 500 ∧
      (Connector.retry { Connector.mkConnector with
        connectF := true }).conn.retryDelayMs = 1000 := by
  obtain ⟨-, -, h3, -, -, -⟩ := connector_retry_backoff
    { Connector.mkConnector with connectF := true }
  obtain ⟨a1, a2, a3⟩ := h3 rfl
  exact ⟨a1, by rw [a2]; decide⟩

/-! ## Supporting lemmas -/

namespace Buffer

theorem writeAt_length (l src : List Nat) (pos : Nat)
    (h : pos + src.length ≤ l.length) :
    (writeAt l pos src).length = l.length := by
  simp [writeAt]
  omega

theorem resizeList_length (l : List Nat) (n : Nat) :
    (resizeList l n).length = n := by
  simp [resizeList]
  omega

theorem toBytesBE_length (w : Nat) : ∀ x, (toBytesBE w x).length = w := by
  induction w with
  | zero => intro x; rfl
  | succ w ih => intro x; simp [toBytesBE, ih]

theorem fromBytesBE_append_single (l : List Nat) (a : Nat) :
    fromBytesBE (l ++ [a]) = fromBytesBE l * 256 + a := by
  simp [fromBytesBE, List.foldl_append]

theorem fromBytesBE_toBytesBE (w : Nat) :
    ∀ x, x < 256 ^ w → fromBytesBE (toBytesBE w x) = x := by
  induction w with
  | zero =>
    intro x hx
    interval_cases x
    rfl
  | succ w ih =>
    intro x hx
    have hdiv : x / 256 < 256 ^ w := by
      rw [Nat.div_lt_iff_lt_mul (by norm_num)]
      calc x < 256 ^ (w + 1) := hx
        _ = 256 ^ w * 256 := by rw [pow_succ]
    rw [toBytesBE, fromBytesBE_append_single, ih _ hdiv]
    omega

theorem makeSpace_spec (b : Buffer) (len : Nat) (hinv : Inv b)
    (hlt : b.writableBytes < len) :
    Inv (b.makeSpace len) ∧ len ≤ (b.makeSpace len).writableBytes ∧
      (b.makeSpace len).readableBytes = b.readableBytes ∧
      (kCheapPrepend ≤ b.readerIndex →
        kCheapPrepend ≤ (b.makeSpace len).readerIndex) := by
  obtain ⟨h1, h2, h3⟩ := hinv
  simp only [size, kCheapPrepend] at h2 h3
  simp only [writableBytes, size] at hlt
  unfold makeSpace
  split
  case isTrue h =>
    have hsz := resizeList_length b.data (b.writerIndex + len)
    simp only [writableBytes, prependableBytes, kCheapPrepend, size] at h
    simp [Inv, writableBytes, prependableBytes, readableBytes, size,
      kCheapPrepend, hsz]
    all_goals omega
  case isFalse h =>
    simp only [writableBytes, prependableBytes, kCheapPrepend, size] at h
    have hspan : ((b.data.drop b.readerIndex).take b.readableBytes).length
        = b.readableBytes := by
      simp only [List.length_take, List.length_drop, readableBytes]
      omega
    have hsz : (writeAt b.data kCheapPrepend
        ((b.data.drop b.readerIndex).take b.readableBytes)).length
        = b.data.length := by
      apply writeAt_length
      rw [hspan]
      simp only [kCheapPrepend, readableBytes]
      omega
    simp only [kCheapPrepend, readableBytes] at hsz
    simp [Inv, writableBytes, prependableBytes, readableBytes, size,
      kCheapPrepend, hsz]
    all_goals omega

theorem ensure_spec (b : Buffer) (len : Nat) (hinv : Inv b) :
    Inv (b.ensureWritableBytes len) ∧
      len ≤ (b.ensureWritableBytes len).writableBytes ∧
      (b.ensureWritableBytes len).readableBytes = b.readableBytes ∧
      (kCheapPrepend ≤ b.readerIndex →
        kCheapPrepend ≤ (b.ensureWritableBytes len).readerIndex) := by
  unfold ensureWritableBytes
  split
  case isTrue h => exact makeSpace_spec b len hinv h
  case isFalse h => exact ⟨hinv, by omega, rfl, fun hr => hr⟩

theorem append_readerIndex (b : Buffer) (src : List Nat) :
    (b.append src).readerIndex = (b.ensureWritableBytes src.length).readerIndex :=
  rfl

theorem append_spec (b : Buffer) (src : List Nat) (hinv : Inv b) :
    Inv (b.append src) ∧
      (b.append src).readableBytes = b.readableBytes + src.length ∧
      (kCheapPrepend ≤ b.readerIndex →
        kCheapPrepend ≤ (b.append src).readerIndex) := by
  obtain ⟨hinv1, hwr, hrd, hpre⟩ := ensure_spec b src.length hinv
  obtain ⟨e1, e2, e3⟩ := hinv1
  simp only [writableBytes, readableBytes, size, kCheapPrepend] at hwr hrd e2 e3
  have hsz : (writeAt (b.ensureWritableBytes src.length).data
      (b.ensureWritableBytes src.length).writerIndex src).length
      = (b.ensureWritableBytes src.length).data.length := by
    apply writeAt_length
    omega
  refine ⟨?_, ?_, ?_⟩
  · unfold append
    simp [Inv, hasWritten, readableBytes, writableBytes, size, kCheapPrepend,
      hsz]
    all_goals omega
  · unfold append
    simp [hasWritten, readableBytes, size, hsz]
    all_goals omega
  · rw [append_readerIndex]
    exact hpre

theorem prepend_spec (b : Buffer) (src : List Nat) (hinv : Inv b)
    (hp : src.length ≤ b.prependableBytes) :
    Inv (b.prepend src) ∧
      (b.prepend src).readerIndex = b.readerIndex - src.length := by
  obtain ⟨h1, h2, h3⟩ := hinv
  simp only [prependableBytes] at hp
  simp only [size, kCheapPrepend] at h2 h3
  have hsz : (writeAt b.data (b.readerIndex - src.length) src).length
      = b.data.length := by
    apply writeAt_length
    omega
  unfold prepend
  simp [Inv, size, kCheapPrepend, hsz]
  all_goals omega

theorem retrieve_spec (b : Buffer) (len : Nat) (hinv : Inv b)
    (h : len ≤ b.readableBytes) :
    Inv (b.retrieve len) ∧
      (kCheapPrepend ≤ b.readerIndex →
        kCheapPrepend ≤ (b.retrieve len).readerIndex) := by
  obtain ⟨h1, h2, h3⟩ := hinv
  simp only [readableBytes] at h
  simp only [size, kCheapPrepend] at h2 h3
  unfold retrieve
  split
  case isTrue hc =>
    simp only [readableBytes] at hc
    simp [Inv, size, kCheapPrepend]
    all_goals omega
  case isFalse hc =>
    unfold retrieveAll
    simp [Inv, size, kCheapPrepend]
    all_goals omega

theorem retrieveAll_spec (b : Buffer) (hinv : Inv b) :
    Inv (b.retrieveAll) ∧ kCheapPrepend ≤ (b.retrieveAll).readerIndex := by
  obtain ⟨h1, h2, h3⟩ := hinv
  simp only [size, kCheapPrepend] at h2 h3
  unfold retrieveAll
  simp [Inv, size, kCheapPrepend]
  all_goals omega

theorem hasWritten_spec (b : Buffer) (len : Nat) (hinv : Inv b)
    (h : len ≤ b.writableBytes) :
    Inv (b.hasWritten len) ∧
      (b.hasWritten len).readerIndex = b.readerIndex := by
  obtain ⟨h1, h2, h3⟩ := hinv
  simp only [writableBytes, size] at h
  simp only [size, kCheapPrepend] at h2 h3
  unfold hasWritten
  simp [Inv, size, kCheapPrepend]
  all_goals omega

theorem readFd_spec (b : Buffer) (incoming : List Nat) (hinv : Inv b) :
    Inv (b.readFd incoming) ∧
      (kCheapPrepend ≤ b.readerIndex →
        kCheapPrepend ≤ (b.readFd incoming).readerIndex) := by
  obtain ⟨h1, h2, h3⟩ := hinv
  simp only [size, kCheapPrepend] at h2 h3
  unfold readFd
  dsimp only
  by_cases hcap : b.writableBytes < 65536
  case pos =>
    rw [if_pos hcap]
    simp only [writableBytes, size] at hcap ⊢
    split
    case isTrue hc =>
      have hsz : (writeAt b.data b.writerIndex
          (incoming.take (min incoming.length
            (b.data.length - b.writerIndex + 65536)))).length
          = b.data.length := by
        apply writeAt_length
        simp only [List.length_take]
        omega
      simp [Inv, size, kCheapPrepend, hsz]
      all_goals omega
    case isFalse hc =>
      have hsz : (writeAt b.data b.writerIndex
          (incoming.take (b.data.length - b.writerIndex))).length
          = b.data.length := by
        apply writeAt_length
        simp only [List.length_take]
        omega
      have hinv1 : Inv { b with
          data := writeAt b.data b.writerIndex
            (incoming.take (b.data.length - b.writerIndex))
          writerIndex := b.data.length } := by
        simp [Inv, size, kCheapPrepend, hsz]
        all_goals omega
      obtain ⟨a1, a2, a3⟩ := append_spec _ _ hinv1
      exact ⟨a1, fun hr => a3 hr⟩
  case neg =>
    rw [if_neg hcap]
    rw [if_pos (Nat.min_le_right incoming.length b.writableBytes)]
    simp only [writableBytes, size] at hcap ⊢
    have hsz : (writeAt b.data b.writerIndex
        (incoming.take (min incoming.length
          (b.data.length - b.writerIndex)))).length = b.data.length := by
      apply writeAt_length
      simp only [List.length_take]
      omega
    simp [Inv, size, kCheapPrepend, hsz]
    all_goals omega

theorem ensure_empty (b : Buffer) (len : Nat) (hinv : Inv b)
    (he : b.readableBytes = 0) :
    (b.ensureWritableBytes len).readerIndex
      = (b.ensureWritableBytes len).writerIndex := by
  obtain ⟨hinv1, hwr, hrd, hpre⟩ := ensure_spec b len hinv
  obtain ⟨a1, a2, a3⟩ := hinv1
  simp only [readableBytes] at hrd he
  omega

theorem append_span_of_empty (b : Buffer) (src : List Nat) (hinv : Inv b)
    (he : b.readableBytes = 0) :
    ((b.append src).data.drop (b.append src).readerIndex).take src.length
      = src := by
  obtain ⟨hinv1, hwr, hrd, hpre⟩ := ensure_spec b src.length hinv
  obtain ⟨e1, e2, e3⟩ := hinv1
  have heq := ensure_empty b src.length hinv he
  have htk : ((b.ensureWritableBytes src.length).data.take
      (b.ensureWritableBytes src.length).writerIndex).length
      = (b.ensureWritableBytes src.length).writerIndex := by
    simp only [List.length_take, size] at e2 ⊢
    omega
  show (((writeAt (b.ensureWritableBytes src.length).data
      (b.ensureWritableBytes src.length).writerIndex src).drop
        (b.ensureWritableBytes src.length).readerIndex).take src.length) = src
  rw [heq]
  unfold writeAt
  rw [List.append_assoc, List.drop_left' htk, List.take_left' rfl]

theorem append_readInt_roundtrip (b : Buffer) (w x : Nat) (hinv : Inv b)
    (he : b.readableBytes = 0) (hx : x < 256 ^ w) :
    fromBytesBE (((b.append (toBytesBE w x)).data.drop
        (b.append (toBytesBE w x)).readerIndex).take w) = x ∧
      (b.append (toBytesBE w x)).readableBytes = w ∧
      ((b.append (toBytesBE w x)).retrieve w).readableBytes = 0 := by
  have hspan := append_span_of_empty b (toBytesBE w x) hinv he
  rw [toBytesBE_length] at hspan
  have hrd := (append_spec b (toBytesBE w x) hinv).2.1
  rw [he, toBytesBE_length, Nat.zero_add] at hrd
  refine ⟨by rw [hspan]; exact fromBytesBE_toBytesBE w x hx, hrd, ?_⟩
  unfold retrieve
  rw [if_neg (by rw [hrd]; omega)]
  simp [retrieveAll, readableBytes]

/-! ## Claim C1 -/

/-- **C1, counterexample.**  The claimed invariant `8 ≤ readerIndex` is not
preserved by every public operation: on a freshly constructed buffer (which
satisfies the invariant and the operation's precondition), `prependInt8`
moves the reader index to 7 < 8. -/
theorem prepend_violates_headroom_bound :
    opPre (mkBuffer 4) (BufOp.prependInt8 0) ∧
      Inv (mkBuffer 4) ∧
      kCheapPrepend ≤ (mkBuffer 4).readerIndex ∧
      (applyOp (mkBuffer 4) (BufOp.prependInt8 0)).readerIndex = 7 ∧
      ¬ kCheapPrepend ≤ (applyOp (mkBuffer 4) (BufOp.prependInt8 0)).readerIndex := by
  decide

/-- **C1 (amended).**  Construction establishes
`8 ≤ readerIndex ≤ writerIndex ≤ size`.  Every public operation
(append, prepend, prependInt8/16/32/64, retrieve, retrieveAll, readInt*,
hasWritten, readFd), run under its documented precondition, preserves
`readerIndex ≤ writerIndex ≤ size` (and `8 ≤ size`); every operation except
the prepend family also preserves `8 ≤ readerIndex`.  The prepend family
consumes headroom and may lower the reader index below 8 (see the
counterexample), which is the only amendment to the claim. -/
theorem buffer_ops_preserve_index_invariant :
    (∀ initialSize, Inv (mkBuffer initialSize) ∧
      kCheapPrepend ≤ (mkBuffer initialSize).readerIndex) ∧
    ∀ (b : Buffer) (op : BufOp), opPre b op → Inv b →
      Inv (applyOp b op) ∧
      (op.isPrependOp = false → kCheapPrepend ≤ b.readerIndex →
        kCheapPrepend ≤ (applyOp b op).readerIndex) := by
  constructor
  · intro n
    simp [mkBuffer, Inv, size, kCheapPrepend]
  · intro b op hp hinv
    cases op with
    | append src =>
      obtain ⟨a1, a2, a3⟩ := append_spec b src hinv
      exact ⟨a1, fun _ => a3⟩
    | prepend src =>
      obtain ⟨a1, a2⟩ := prepend_spec b src hinv hp
      exact ⟨a1, fun hfalse => nomatch hfalse⟩
    | prependInt8 x =>
      obtain ⟨a1, a2⟩ := prepend_spec b (toBytesBE 1 x) hinv
        (by rw [toBytesBE_length]; exact hp)
      exact ⟨a1, fun hfalse => nomatch hfalse⟩
    | prependInt16 x =>
      obtain ⟨a1, a2⟩ := prepend_spec b (toBytesBE 2 x) hinv
        (by rw [toBytesBE_length]; exact hp)
      exact ⟨a1, fun hfalse => nomatch hfalse⟩
    | prependInt32 x =>
      obtain ⟨a1, a2⟩ := prepend_spec b (toBytesBE 4 x) hinv
        (by rw [toBytesBE_length]; exact hp)
      exact ⟨a1, fun hfalse => nomatch hfalse⟩
    | prependInt64 x =>
      obtain ⟨a1, a2⟩ := prepend_spec b (toBytesBE 8 x) hinv
        (by rw [toBytesBE_length]; exact hp)
      exact ⟨a1, fun hfalse => nomatch hfalse⟩
    | retrieve len =>
      obtain ⟨a1, a2⟩ := retrieve_spec b len hinv hp
      exact ⟨a1, fun _ => a2⟩
    | retrieveAll =>
      obtain ⟨a1, a2⟩ := retrieveAll_spec b hinv
      exact ⟨a1, fun _ _ => a2⟩
    | readInt8 =>
      obtain ⟨a1, a2⟩ := retrieve_spec b 1 hinv hp
      exact ⟨a1, fun _ => a2⟩
    | readInt16 =>
      obtain ⟨a1, a2⟩ := retrieve_spec b 2 hinv hp
      exact ⟨a1, fun _ => a2⟩
    | readInt32 =>
      obtain ⟨a1, a2⟩ := retrieve_spec b 4 hinv hp
      exact ⟨a1, fun _ => a2⟩
    | readInt64 =>
      obtain ⟨a1, a2⟩ := retrieve_spec b 8 hinv hp
      exact ⟨a1, fun _ => a2⟩
    | hasWritten len =>
      obtain ⟨a1, a2⟩ := hasWritten_spec b len hinv hp
      refine ⟨a1, fun _ hr => ?_⟩
      show kCheapPrepend ≤ (b.hasWritten len).readerIndex
      rw [a2]
      exact hr
    | readFd incoming =>
      obtain ⟨a1, a2⟩ := readFd_spec b incoming hinv
      exact ⟨a1, fun _ => a2⟩

/-- **C1, witness.** -/
theorem buffer_ops_preserve_index_invariant_witness :
    Inv (applyOp (mkBuffer 4) (BufOp.append [1, 2, 3])) ∧
      kCheapPrepend ≤ (applyOp (mkBuffer 4) (BufOp.append [1, 2, 3])).readerIndex := by
  obtain ⟨a1, a2⟩ := buffer_ops_preserve_index_invariant.2 (mkBuffer 4)
    (BufOp.append [1, 2, 3]) (by decide) (by decide)
  exact ⟨a1, a2 (by decide) (by decide)⟩

/-! ## Claim C8 -/

/-- **C8, counterexample.**  `append_int_w(x); read_int_w() == x` does not
hold for every buffer: on a buffer that already holds one readable byte (9),
appending 3 and then reading returns the stale byte 9, not 3. -/
theorem appendInt_readInt_roundtrip_fails_nonempty :
    ((((mkBuffer 4).append [9]).appendInt8 3).readInt8).1 = 9 ∧
      ¬ ((((mkBuffer 4).append [9]).appendInt8 3).readInt8).1 = 3 := by
  decide

set_option maxHeartbeats 1000000 in
/-- **C8 (amended).**  For every buffer whose readable region is empty (and
whose indices satisfy the buffer invariant), for every width
`w ∈ {1, 2, 4, 8}` and every `w`-byte value `x < 2^(8w)` :
`append_int_w(x)` followed by `read_int_w()` returns `x`, the append makes
exactly `w` bytes readable, and the read consumes exactly those `w` bytes.
The amendment restricts the quantifier to buffers with no readable bytes;
on a non-empty buffer the read returns previously buffered data (see the
counterexample). -/
theorem appendInt_readInt_roundtrip_of_empty (b : Buffer) (hinv : Inv b)
    (he : b.readableBytes = 0) :
    (∀ x, x < 2 ^ 8 →
      ((b.appendInt8 x).readInt8).1 = x ∧
        (b.appendInt8 x).readableBytes = 1 ∧
        (((b.appendInt8 x).readInt8).2).readableBytes = 0) ∧
    (∀ x, x < 2 ^ 16 →
      ((b.appendInt16 x).readInt16).1 = x ∧
        (b.appendInt16 x).readableBytes = 2 ∧
        (((b.appendInt16 x).readInt16).2).readableBytes = 0) ∧
    (∀ x, x < 2 ^ 32 →
      ((b.appendInt32 x).readInt32).1 = x ∧
        (b.appendInt32 x).readableBytes = 4 ∧
        (((b.appendInt32 x).readInt32).2).readableBytes = 0) ∧
    (∀ x, x < 2 ^ 64 →
      ((b.appendInt64 x).readInt64).1 = x ∧
        (b.appendInt64 x).readableBytes = 8 ∧
        (((b.appendInt64 x).readInt64).2).readableBytes = 0) := by
  refine ⟨fun x hx => ?_, fun x hx => ?_, fun x hx => ?_, fun x hx => ?_⟩
  · exact append_readInt_roundtrip b 1 x hinv he (by norm_num at hx ⊢; exact hx)
  · exact append_readInt_roundtrip b 2 x hinv he (by norm_num at hx ⊢; exact hx)
  · exact append_readInt_roundtrip b 4 x hinv he (by norm_num at hx ⊢; exact hx)
  · exact append_readInt_roundtrip b 8 x hinv he (by norm_num at hx ⊢; exact hx)

/-- **C8, witness.** -/
theorem appendInt_readInt_roundtrip_of_empty_witness :
    (((mkBuffer 4).appendInt8 7).readInt8).1 = 7 ∧
      ((mkBuffer 4).appendInt8 7).readableBytes = 1 ∧
      ((((mkBuffer 4).appendInt8 7).readInt8).2).readableBytes = 0 :=
  (appendInt_readInt_roundtrip_of_empty (mkBuffer 4) (by decide) (by decide)).1
    7 (by norm_num)

end Buffer

end Muduo
